import Mathlib

/-!
Shallow embedding of `src/common/fontutils.js`: the font descriptor grammar
parsers, the family normalizer, the range containment test, the registry
query engine, and the resolution facade (`query`, `tryQuery`, `load`).

Modelling conventions:
* JS strings are Lean `String`; character-level work is done on `List Char`.
  `toLowerCase` is modelled on ASCII via `Char.toLower` (every string the
  claims touch is ASCII).
* JS numbers are modelled as exact rationals `ℚ`; `NaN`/`undefined` results
  of `parseFloat` are modelled by `Option ℚ` (`none`).
* Thrown exceptions are modelled with `Except FontError`; the three error
  shapes occurring in the module are the constructors of `FontError`.
* The browser font registry `document.fonts` is modelled as a
  `List FontFace` passed explicitly; `document.fonts.add` appends.
-/

namespace FontUtils

/-- JS whitespace (the ASCII part of `\s` / `String.prototype.trim`). -/
def isJsWs (c : Char) : Bool :=
  c = ' ' ∨ c = '\t' ∨ c = '\n' ∨ c = '\r' ∨ c = '\x0b' ∨ c = '\x0c'

/-- ASCII decimal digit, the `[0-9]` character class. -/
def isDigit (c : Char) : Bool :=
  '0' ≤ c ∧ c ≤ '9'

/-- `str.trim()` on a character list. -/
def jsTrim (l : List Char) : List Char :=
  ((l.dropWhile isJsWs).reverse.dropWhile isJsWs).reverse

/-- `str.toLowerCase()` (ASCII model). -/
def jsToLower (l : List Char) : List Char :=
  l.map Char.toLower

/-- Worker for `splitWs`: `inRun` records whether the scan is inside a
whitespace run whose field has already been emitted; `acc` holds the
current field, reversed. -/
def splitWsGo : Bool → List Char → List Char → List (List Char)
  | false, [], acc => [acc.reverse]
  | true, [], _ => [[]]
  | false, c :: rest, acc =>
    if isJsWs c then acc.reverse :: splitWsGo true rest []
    else splitWsGo false rest (c :: acc)
  | true, c :: rest, _ =>
    if isJsWs c then splitWsGo true rest []
    else splitWsGo false rest [c]

/-- `str.split(/\s+/)`: fields separated by maximal whitespace runs
(including empty boundary fields, as in JS). -/
def splitWs (l : List Char) : List (List Char) :=
  splitWsGo false l []

/-- Numeric value of a digit string, most significant first. -/
def digitsVal (l : List Char) : ℕ :=
  l.foldl (fun a c => 10 * a + (c.toNat - 48)) 0

/-- Exponent part after the `e`/`E` in `parseFloat`: optional sign then
digits; a malformed exponent contributes 0 (`parseFloat` stops before it). -/
def expVal (l : List Char) : ℤ :=
  match l with
  | '+' :: r => (digitsVal (r.takeWhile isDigit) : ℤ)
  | '-' :: r => -(digitsVal (r.takeWhile isDigit) : ℤ)
  | r => (digitsVal (r.takeWhile isDigit) : ℤ)

/-- The exact rational `num * 10 ^ e10` (kernel-friendly: built from
`mkRat` and `Nat.pow` only). -/
def decScaled (num : ℕ) (e10 : ℤ) : ℚ :=
  if 0 ≤ e10 then mkRat (↑(num * 10 ^ e10.toNat)) 1
  else mkRat (↑num) (10 ^ (-e10).toNat)

/-- `parseFloat(str)`: longest leading decimal literal, `none` for `NaN`.
JS float64 values are modelled as exact rationals. (The `Infinity` form
never reaches `parseFloat` in this module: no token matching one of the
descriptor patterns starts with it.) -/
def jsParseFloat (l : List Char) : Option ℚ :=
  let l1 := l.dropWhile isJsWs
  let neg := l1.headD ' ' = '-'
  let l2 := if l1.headD ' ' = '-' ∨ l1.headD ' ' = '+' then l1.tail else l1
  let ip := l2.takeWhile isDigit
  let l3 := l2.dropWhile isDigit
  let fp := match l3 with
    | '.' :: r => r.takeWhile isDigit
    | _ => []
  let l4 := match l3 with
    | '.' :: r => r.dropWhile isDigit
    | _ => l3
  if ip.isEmpty ∧ fp.isEmpty then none
  else
    let ex : ℤ := (match l4 with
      | 'e' :: r => expVal r
      | 'E' :: r => expVal r
      | _ => 0) - fp.length
    let num : ℕ := digitsVal ip * 10 ^ fp.length + digitsVal fp
    let mag := decScaled num ex
    some (if neg then -mag else mag)

/-- Matcher for the regex `^[0-9]*(.[0-9]+)?$` (the `.` is the wildcard, as
written in the source): either all digits, or a digit prefix, one arbitrary
character, and a nonempty digit suffix. -/
def weightNumAux : List Char → Bool
  | [] => true
  | c :: rest =>
    if isDigit c then
      weightNumAux rest || (!rest.isEmpty && rest.all isDigit)
    else
      !rest.isEmpty && rest.all isDigit

/-- Matcher for the weight token pattern `^[0-9]*(.[0-9]+)?$`. -/
def weightNumMatch (l : List Char) : Bool :=
  weightNumAux l

/-- Matcher for `-?[0-9]*(.[0-9]+)?` (the body of the style token pattern,
before the literal `deg`). A leading `-` can be taken by `-?` or by the
wildcard. -/
def styleNumBody : List Char → Bool
  | '-' :: r => weightNumAux r || (!r.isEmpty && r.all isDigit)
  | q => weightNumAux q

/-- Matcher for the style token pattern `^-?[0-9]*(.[0-9]+)?deg$`. -/
def styleNumMatch (l : List Char) : Bool :=
  match l.reverse with
  | 'g' :: 'e' :: 'd' :: qr => styleNumBody qr.reverse
  | _ => false

/-- Matcher for the stretch token pattern `^[0-9]*(.[0-9]+)?%$`. -/
def stretchNumMatch (l : List Char) : Bool :=
  match l.reverse with
  | '%' :: qr => weightNumAux qr.reverse
  | _ => false

end FontUtils

deriving instance DecidableEq for Except

namespace FontUtils

/-- The optional descriptor fields of a font request (raw shorthand). -/
structure FontDescriptor where
  style : Option String
  weight : Option String
  stretch : Option String
deriving Repr, DecidableEq

/-- The error shapes thrown by the module: `SyntaxError` from the grammar
parsers, a plain `Error`, the `TypeError` a `rangeContains(undefined, r)`
call would raise, and the `FontRequiredError` class. (JS additionally wraps
the offending string in the message in single quotes; omitted here.) -/
inductive FontError where
  | syntaxError (msg : String)
  | plainError (msg : String)
  | typeError (msg : String)
  | fontRequiredError (family : String) (desc : FontDescriptor)
deriving Repr, DecidableEq

/-- The `FontRequiredError` class of fontutils.js: an error value carrying
the requested family and descriptor for diagnostics. Defined by the module
but, notably, never constructed by `tryQuery`. -/
def FontRequiredError (family : String) (desc : FontDescriptor) : FontError :=
  .fontRequiredError family desc

/-- The weight keyword table. -/
def fontWeightKeywords : List (String × ℚ) :=
  [("normal", 400), ("bold", 700)]

/-- The stretch keyword table (percentages; halves are exact in `ℚ`). -/
def fontStretchKeywords : List (String × ℚ) :=
  [("ultra-condensed", 50), ("extra-condensed", mkRat 125 2), ("condensed", 75),
   ("semi-condensed", mkRat 175 2), ("normal", 100), ("semi-expanded", mkRat 225 2),
   ("expanded", 125), ("extra-expanded", 150), ("ultra-expanded", 200)]

/-- Value of one weight token: `parseFloat` when the numeric pattern
matches, else keyword lookup; `none` models `undefined` and `NaN`. -/
def weightTokenVal (t : List Char) : Option ℚ :=
  if weightNumMatch t then jsParseFloat t else fontWeightKeywords.lookup (String.mk t)

/-- Value of one stretch token: `parseFloat` when the numeric pattern
matches, else keyword lookup. -/
def stretchTokenVal (t : List Char) : Option ℚ :=
  if stretchNumMatch t then jsParseFloat t else fontStretchKeywords.lookup (String.mk t)

/-- Value of one oblique-angle token: set only when the pattern matches
(style has no keyword fallback for angle tokens). -/
def styleTokenVal (t : List Char) : Option ℚ :=
  if styleNumMatch t then jsParseFloat t else none

/-- Per-token guard of `parseFontWeight`: `undefined`, `NaN`, or a value
outside [1, 1000] throws a `SyntaxError`. -/
def checkWeightToken (orig : String) (t : List Char) : Except FontError ℚ :=
  match weightTokenVal t with
  | none => .error (.syntaxError ("invalid font weight " ++ orig))
  | some v =>
    if v < 1 ∨ v > 1000 then .error (.syntaxError ("invalid font weight " ++ orig))
    else .ok v

/-- Per-token guard of `parseFontStretch`: bound is [1, 200]. -/
def checkStretchToken (orig : String) (t : List Char) : Except FontError ℚ :=
  match stretchTokenVal t with
  | none => .error (.syntaxError ("invalid font stretch " ++ orig))
  | some v =>
    if v < 1 ∨ v > 200 then .error (.syntaxError ("invalid font stretch " ++ orig))
    else .ok v

/-- Per-token guard of the oblique angle: bound is [-90, 90]. -/
def checkStyleToken (orig : String) (t : List Char) : Except FontError ℚ :=
  match styleTokenVal t with
  | none => .error (.syntaxError ("invalid font style " ++ orig))
  | some v =>
    if v < -90 ∨ v > 90 then .error (.syntaxError ("invalid font style " ++ orig))
    else .ok v

/-- `parseFontWeight`: trim, lower-case, split on whitespace; 1 or 2 tokens
each parsed by `checkWeightToken`; one token yields `(v, v)`, two yield the
pair verbatim; any other token count throws. -/
def parseFontWeight (s : String) : Except FontError (ℚ × ℚ) :=
  match splitWs (jsToLower (jsTrim s.data)) with
  | [t] =>
    match checkWeightToken s t with
    | .error e => .error e
    | .ok v => .ok (v, v)
  | [t0, t1] =>
    match checkWeightToken s t0 with
    | .error e => .error e
    | .ok v0 =>
      match checkWeightToken s t1 with
      | .error e => .error e
      | .ok v1 => .ok (v0, v1)
  | _ => .error (.syntaxError ("invalid font weight " ++ s))

/-- `parseFontStretch`: same shape as `parseFontWeight` with the stretch
token grammar. -/
def parseFontStretch (s : String) : Except FontError (ℚ × ℚ) :=
  match splitWs (jsToLower (jsTrim s.data)) with
  | [t] =>
    match checkStretchToken s t with
    | .error e => .error e
    | .ok v => .ok (v, v)
  | [t0, t1] =>
    match checkStretchToken s t0 with
    | .error e => .error e
    | .ok v0 =>
      match checkStretchToken s t1 with
      | .error e => .error e
      | .ok v1 => .ok (v0, v1)
  | _ => .error (.syntaxError ("invalid font stretch " ++ s))

/-- Result of `parseFontStyle`: the style keyword and, for oblique, the
angle range (`none` models the `undefined` field for normal and italic). -/
structure StyleVal where
  style : String
  obliqueAngle : Option (ℚ × ℚ)
deriving Repr, DecidableEq

/-- The style keyword set. -/
def styleKeywords : List String := ["normal", "italic", "oblique"]

/-- Body of `parseFontStyle` after tokenizing: the shifted first token and
the remaining tokens. The first token must be a style keyword; `normal`
and `italic` admit no further tokens; `oblique` admits up to two angle
tokens, defaulting to the range [14, 14]; one angle yields `(v, v)`. -/
def parseStyleTokens (s : String) (style : List Char) (rest : List (List Char)) :
    Except FontError StyleVal :=
  if ¬ styleKeywords.contains (String.mk style) then
    .error (.syntaxError ("invalid font style " ++ s))
  else if String.mk style ≠ "oblique" then
    if ¬ rest.isEmpty then .error (.syntaxError ("invalid font style " ++ s))
    else .ok ⟨String.mk style, none⟩
  else
    match rest with
    | [] => .ok ⟨String.mk style, some (14, 14)⟩
    | [t] =>
      match checkStyleToken s t with
      | .error e => .error e
      | .ok v => .ok ⟨String.mk style, some (v, v)⟩
    | [t0, t1] =>
      match checkStyleToken s t0 with
      | .error e => .error e
      | .ok v0 =>
        match checkStyleToken s t1 with
        | .error e => .error e
        | .ok v1 => .ok ⟨String.mk style, some (v0, v1)⟩
    | _ => .error (.syntaxError ("invalid font style " ++ s))

/-- `parseFontStyle`: tokenize and hand the shifted first token to
`parseStyleTokens`. (With no token at all the shifted value is undefined,
which fails the keyword test exactly as an unknown keyword does.) -/
def parseFontStyle (s : String) : Except FontError StyleVal :=
  match splitWs (jsToLower (jsTrim s.data)) with
  | [] => .error (.syntaxError ("invalid font style " ++ s))
  | style :: rest => parseStyleTokens s style rest

/-- `str.substring(1, str.length - 1)` as JS computes it on a string whose
first and last characters are quotes: for a one-character string the
arguments swap and the whole string comes back. -/
def quoteInner (l : List Char) : List Char :=
  if l.length ≤ 1 then l else (l.drop 1).dropLast

/-- `normalizeFontFamily`: trim, lower-case, and when the result starts and
ends with a double quote, take the inner substring and trim again. -/
def normalizeFontFamily (s : String) : String :=
  let r := jsToLower (jsTrim s.data)
  if r.headD ' ' = '"' ∧ r.getLastD ' ' = '"' then
    String.mk (jsTrim (quoteInner r))
  else
    String.mk r

/-- A registry entry (the `FontFace` fields read by this module, plus the
opaque source it was constructed from). -/
structure FontFace where
  family : String
  style : String
  weight : String
  stretch : String
  ascentOverride : String
  descentOverride : String
  featureSettings : String
  lineGapOverride : String
  unicodeRange : String
  source : String
deriving Repr, DecidableEq

/-- The structural eligibility fields all equal their default sentinels. -/
def structuralDefaults (e : FontFace) : Prop :=
  e.ascentOverride = "normal" ∧ e.descentOverride = "normal" ∧
  e.featureSettings = "normal" ∧ e.lineGapOverride = "normal" ∧
  e.unicodeRange = "U+0-10FFFF"

instance (e : FontFace) : Decidable (structuralDefaults e) := by
  unfold structuralDefaults; infer_instance

/-- `rangeContains(lhs, rhs)`: `lhs[0] <= rhs[0] && lhs[1] >= rhs[1]`. -/
def rangeContains (lhs rhs : ℚ × ℚ) : Bool :=
  decide (lhs.1 ≤ rhs.1) && decide (lhs.2 ≥ rhs.2)

/-- JS truthiness of an optional string field: absent or empty is falsy. -/
def truthy : Option String → Bool
  | none => false
  | some s => !(s == "")

/-- `if (desc.f) loadDesc.f = parse(desc.f);` — parse only truthy fields;
a falsy field leaves the parsed descriptor absent. -/
def parseIfTruthy {α : Type} (p : String → Except FontError α) :
    Option String → Except FontError (Option α)
  | none => .ok none
  | some s => if s = "" then .ok none else (p s).map some

/-- The style comparison of the query loop: parse the entry style; the
style keyword must equal the requested one; when the request carries an
oblique angle range the entry range must contain it. (When the entry has
no angle range at that point, JS would dereference undefined and raise a
`TypeError`; the parser makes this branch unreachable.) -/
def styleMatches (entryStyleStr : String) (q : StyleVal) : Except FontError Bool :=
  match parseFontStyle entryStyleStr with
  | .error e => .error e
  | .ok es =>
    if es.style ≠ q.style then .ok false
    else
      match q.obliqueAngle with
      | none => .ok true
      | some qr =>
        match es.obliqueAngle with
        | none => .error (.typeError "rangeContains of undefined")
        | some er => .ok (rangeContains er qr)

/-- The style clause of the query loop: skipped when no style was
requested. -/
def styleCheck (entry : FontFace) : Option StyleVal → Except FontError Bool
  | none => .ok true
  | some q => styleMatches entry.style q

/-- The weight clause of the query loop: parse the entry weight and test
containment of the requested range; skipped when no weight was requested. -/
def weightCheck (entry : FontFace) : Option (ℚ × ℚ) → Except FontError Bool
  | none => .ok true
  | some qr =>
    match parseFontWeight entry.weight with
    | .error e => .error e
    | .ok er => .ok (rangeContains er qr)

/-- The stretch clause of the query loop. -/
def stretchCheck (entry : FontFace) : Option (ℚ × ℚ) → Except FontError Bool
  | none => .ok true
  | some qr =>
    match parseFontStretch entry.stretch with
    | .error e => .error e
    | .ok er => .ok (rangeContains er qr)

/-- One iteration of the query loop over a registry entry: `.ok false`
models `continue`, `.ok true` models returning the entry, `.error` models
a thrown exception while parsing the entry descriptors. -/
def matchEntry (entry : FontFace) (loadFamily : String) (loadStyle : Option StyleVal)
    (loadWeight loadStretch : Option (ℚ × ℚ)) : Except FontError Bool :=
  if normalizeFontFamily entry.family ≠ loadFamily then .ok false
  else if entry.ascentOverride ≠ "normal" then .ok false
  else if entry.descentOverride ≠ "normal" then .ok false
  else if entry.featureSettings ≠ "normal" then .ok false
  else if entry.lineGapOverride ≠ "normal" then .ok false
  else if entry.unicodeRange ≠ "U+0-10FFFF" then .ok false
  else
    match styleCheck entry loadStyle with
    | .error e => .error e
    | .ok false => .ok false
    | .ok true =>
      match weightCheck entry loadWeight with
      | .error e => .error e
      | .ok false => .ok false
      | .ok true =>
        match stretchCheck entry loadStretch with
        | .error e => .error e
        | .ok false => .ok false
        | .ok true => .ok true

/-- The search loop of `query`: first entry for which `matchEntry` says
true; `none` when the registry is exhausted. -/
def queryFind (loadFamily : String) (loadStyle : Option StyleVal)
    (loadWeight loadStretch : Option (ℚ × ℚ)) :
    List FontFace → Except FontError (Option FontFace)
  | [] => .ok none
  | entry :: rest =>
    match matchEntry entry loadFamily loadStyle loadWeight loadStretch with
    | .error e => .error e
    | .ok true => .ok (some entry)
    | .ok false => queryFind loadFamily loadStyle loadWeight loadStretch rest

/-- `query(family, desc)`: normalize the family, parse the truthy
descriptor fields, then scan the registry (`document.fonts`, passed here
explicitly) for the first matching entry. -/
def query (registry : List FontFace) (family : String) (desc : FontDescriptor) :
    Except FontError (Option FontFace) :=
  match parseIfTruthy parseFontStyle desc.style with
  | .error e => .error e
  | .ok loadStyle =>
    match parseIfTruthy parseFontWeight desc.weight with
    | .error e => .error e
    | .ok loadWeight =>
      match parseIfTruthy parseFontStretch desc.stretch with
      | .error e => .error e
      | .ok loadStretch =>
        queryFind (normalizeFontFamily family) loadStyle loadWeight loadStretch registry

/-- `tryQuery(family, desc)`: call `query` and throw when it found nothing.
The thrown value is a plain `Error` whose message interpolates the local
variable `font` — which is `undefined` on this path — and it carries no
family or descriptor fields; `FontRequiredError` is not used. -/
def tryQuery (registry : List FontFace) (family : String) (desc : FontDescriptor) :
    Except FontError FontFace :=
  match query registry family desc with
  | .error e => .error e
  | .ok none => .error (.plainError "required font undefined not found")
  | .ok (some font) => .ok font

/-- Modelled from the spec: the external registry constructor
(`new FontFace(family, source, descriptors)`). Descriptors omitted from
the request default to normal; the structural eligibility fields take
their default sentinels. (Browser-side grammar validation of the
descriptor strings is not modelled.) -/
def mkFontFace (family source : String) (desc : FontDescriptor) : FontFace :=
  ⟨family, desc.style.getD "normal", desc.weight.getD "normal",
   desc.stretch.getD "normal", "normal", "normal", "normal", "normal",
   "U+0-10FFFF", source⟩

/-- `load(family, source, desc)`: `query` first; when nothing is found,
construct a new `FontFace` and add it to the registry (`document.fonts.add`
appends). The result pairs the updated registry with the font whose load
completion the JS promise yields. -/
def load (registry : List FontFace) (family source : String) (desc : FontDescriptor) :
    Except FontError (List FontFace × FontFace) :=
  match query registry family desc with
  | .error e => .error e
  | .ok (some font) => .ok (registry, font)
  | .ok none =>
    let font := mkFontFace family source desc
    .ok (registry ++ [font], font)

/-- Registry entry with the given descriptor strings, default structural
eligibility fields, and empty source (helper for concrete instances). -/
def entryOf (family style weight stretch : String) : FontFace :=
  ⟨family, style, weight, stretch, "normal", "normal", "normal", "normal",
   "U+0-10FFFF", ""⟩

/-- The `parts.length` the parsers see: number of whitespace-separated
tokens of a shorthand after trimming and lower-casing. -/
def numTokens (s : String) : ℕ :=
  (splitWs (jsToLower (jsTrim s.data))).length

/-! ### Helper lemmas shared by the claim theorems -/

theorem rangeContains_refl (r : ℚ × ℚ) : rangeContains r r = true := by
  simp [rangeContains]

theorem parseIfTruthy_ok_some {α : Type} {p : String → Except FontError α}
    {o : Option String} {a : α} (h : parseIfTruthy p o = .ok (some a)) :
    ∃ s, o = some s ∧ s ≠ "" ∧ p s = .ok a := by
  cases o with
  | none => simp [parseIfTruthy] at h
  | some s =>
    simp only [parseIfTruthy] at h
    split at h
    · simp at h
    · next hne =>
      cases hp : p s with
      | error e => rw [hp] at h; simp [Except.map] at h
      | ok b =>
        rw [hp] at h
        simp only [Except.map, Except.ok.injEq, Option.some.injEq] at h
        subst h
        exact ⟨s, rfl, hne, hp⟩

theorem parseIfTruthy_truthy_some {α : Type} {p : String → Except FontError α}
    {o : Option String} {ls : Option α} (ht : truthy o = true)
    (h : parseIfTruthy p o = .ok ls) :
    ∃ s a, o = some s ∧ p s = .ok a ∧ ls = some a := by
  cases o with
  | none => simp [truthy] at ht
  | some s =>
    simp only [truthy, Bool.not_eq_true', beq_eq_false_iff_ne, ne_eq] at ht
    simp only [parseIfTruthy] at h
    rw [if_neg ht] at h
    cases hp : p s with
    | error e => rw [hp] at h; simp [Except.map] at h
    | ok b =>
      rw [hp] at h
      simp only [Except.map, Except.ok.injEq] at h
      exact ⟨s, b, rfl, hp, h.symm⟩

theorem checkWeightToken_ok_bounds {o : String} {t : List Char} {v : ℚ}
    (h : checkWeightToken o t = .ok v) : 1 ≤ v ∧ v ≤ 1000 := by
  unfold checkWeightToken at h
  split at h
  · simp at h
  · split at h
    · simp at h
    · next hb =>
      simp only [Except.ok.injEq] at h
      subst h
      push_neg at hb
      exact hb

theorem parseStyleTokens_ok_ordered {s : String} {style : List Char}
    {rest : List (List Char)} {sv : StyleVal} {r : ℚ × ℚ}
    (h : parseStyleTokens s style rest = .ok sv)
    (hoa : sv.obliqueAngle = some r) : r.1 ≤ r.2 ∨ rest.length = 2 := by
  unfold parseStyleTokens at h
  split at h
  · simp at h
  · split at h
    · split at h
      · simp at h
      · simp only [Except.ok.injEq] at h
        subst h
        simp at hoa
    · split at h
      · simp only [Except.ok.injEq] at h
        subst h
        simp only [StyleVal.mk.injEq, Option.some.injEq] at hoa
        subst hoa
        left
        norm_num
      · split at h
        · simp at h
        · simp only [Except.ok.injEq] at h
          subst h
          simp only [StyleVal.mk.injEq, Option.some.injEq] at hoa
          subst hoa
          left
          simp
      · right
        rfl
      · simp at h

theorem matchEntry_ok_true_structural {e : FontFace} {lf : String} {ls : Option StyleVal}
    {lw lst : Option (ℚ × ℚ)} (h : matchEntry e lf ls lw lst = .ok true) :
    structuralDefaults e := by
  unfold matchEntry at h
  by_cases h1 : normalizeFontFamily e.family ≠ lf
  · rw [if_pos h1] at h; simp at h
  rw [if_neg h1] at h
  by_cases h2 : e.ascentOverride ≠ "normal"
  · rw [if_pos h2] at h; simp at h
  rw [if_neg h2] at h
  by_cases h3 : e.descentOverride ≠ "normal"
  · rw [if_pos h3] at h; simp at h
  rw [if_neg h3] at h
  by_cases h4 : e.featureSettings ≠ "normal"
  · rw [if_pos h4] at h; simp at h
  rw [if_neg h4] at h
  by_cases h5 : e.lineGapOverride ≠ "normal"
  · rw [if_pos h5] at h; simp at h
  rw [if_neg h5] at h
  by_cases h6 : e.unicodeRange ≠ "U+0-10FFFF"
  · rw [if_pos h6] at h; simp at h
  push_neg at h2 h3 h4 h5 h6
  exact ⟨h2, h3, h4, h5, h6⟩

theorem matchEntry_exact {e : FontFace} {desc : FontDescriptor} {lf : String}
    {ls : Option StyleVal} {lw lst : Option (ℚ × ℚ)}
    (hlf : normalizeFontFamily e.family = lf)
    (hsd : structuralDefaults e)
    (hls : parseIfTruthy parseFontStyle desc.style = .ok ls)
    (hlw : parseIfTruthy parseFontWeight desc.weight = .ok lw)
    (hlst : parseIfTruthy parseFontStretch desc.stretch = .ok lst)
    (hs : truthy desc.style = true → desc.style = some e.style)
    (hw : truthy desc.weight = true → desc.weight = some e.weight)
    (hst : truthy desc.stretch = true → desc.stretch = some e.stretch) :
    matchEntry e lf ls lw lst = .ok true := by
  obtain ⟨h2, h3, h4, h5, h6⟩ := hsd
  have hsc : styleCheck e ls = .ok true := by
    cases ls with
    | none => rfl
    | some q =>
      obtain ⟨s, hos, hne, hps⟩ := parseIfTruthy_ok_some hls
      have ht : truthy desc.style = true := by rw [hos]; simp [truthy, hne]
      have hse : s = e.style := by
        have h0 := hs ht
        rw [hos] at h0
        exact Option.some.inj h0
      rw [hse] at hps
      unfold styleCheck styleMatches
      rw [hps]
      cases hq : q.obliqueAngle with
      | none => simp [hq]
      | some qr => simp [hq, rangeContains_refl]
  have hwc : weightCheck e lw = .ok true := by
    cases lw with
    | none => rfl
    | some qr =>
      obtain ⟨s, hos, hne, hps⟩ := parseIfTruthy_ok_some hlw
      have ht : truthy desc.weight = true := by rw [hos]; simp [truthy, hne]
      have hse : s = e.weight := by
        have h0 := hw ht
        rw [hos] at h0
        exact Option.some.inj h0
      rw [hse] at hps
      unfold weightCheck
      rw [hps]
      simp [rangeContains_refl]
  have hstc : stretchCheck e lst = .ok true := by
    cases lst with
    | none => rfl
    | some qr =>
      obtain ⟨s, hos, hne, hps⟩ := parseIfTruthy_ok_some hlst
      have ht : truthy desc.stretch = true := by rw [hos]; simp [truthy, hne]
      have hse : s = e.stretch := by
        have h0 := hst ht
        rw [hos] at h0
        exact Option.some.inj h0
      rw [hse] at hps
      unfold stretchCheck
      rw [hps]
      simp [rangeContains_refl]
  unfold matchEntry
  rw [if_neg (by simp [hlf]), if_neg (by simp [h2]), if_neg (by simp [h3]),
    if_neg (by simp [h4]), if_neg (by simp [h5]), if_neg (by simp [h6])]
  simp only [hsc, hwc, hstc]

theorem matchEntry_style_error {e : FontFace} {lf : String} {q : StyleVal}
    {lw lst : Option (ℚ × ℚ)} {err : FontError}
    (hlf : normalizeFontFamily e.family = lf) (hsd : structuralDefaults e)
    (hperr : parseFontStyle e.style = .error err) :
    matchEntry e lf (some q) lw lst = .error err := by
  obtain ⟨h2, h3, h4, h5, h6⟩ := hsd
  have hsc : styleCheck e (some q) = .error err := by
    unfold styleCheck styleMatches
    rw [hperr]
  unfold matchEntry
  rw [if_neg (by simp [hlf]), if_neg (by simp [h2]), if_neg (by simp [h3]),
    if_neg (by simp [h4]), if_neg (by simp [h5]), if_neg (by simp [h6])]
  simp only [hsc]

theorem matchEntry_weight_error {e : FontFace} {lf : String} {ls : Option StyleVal}
    {qr : ℚ × ℚ} {lst : Option (ℚ × ℚ)} {err : FontError}
    (hlf : normalizeFontFamily e.family = lf) (hsd : structuralDefaults e)
    (hsc : styleCheck e ls = .ok true)
    (hperr : parseFontWeight e.weight = .error err) :
    matchEntry e lf ls (some qr) lst = .error err := by
  obtain ⟨h2, h3, h4, h5, h6⟩ := hsd
  have hwc : weightCheck e (some qr) = .error err := by
    unfold weightCheck
    rw [hperr]
  unfold matchEntry
  rw [if_neg (by simp [hlf]), if_neg (by simp [h2]), if_neg (by simp [h3]),
    if_neg (by simp [h4]), if_neg (by simp [h5]), if_neg (by simp [h6])]
  simp only [hsc, hwc]

theorem matchEntry_stretch_error {e : FontFace} {lf : String} {ls : Option StyleVal}
    {lw : Option (ℚ × ℚ)} {qr : ℚ × ℚ} {err : FontError}
    (hlf : normalizeFontFamily e.family = lf) (hsd : structuralDefaults e)
    (hsc : styleCheck e ls = .ok true)
    (hwc : weightCheck e lw = .ok true)
    (hperr : parseFontStretch e.stretch = .error err) :
    matchEntry e lf ls lw (some qr) = .error err := by
  obtain ⟨h2, h3, h4, h5, h6⟩ := hsd
  have hstc : stretchCheck e (some qr) = .error err := by
    unfold stretchCheck
    rw [hperr]
  unfold matchEntry
  rw [if_neg (by simp [hlf]), if_neg (by simp [h2]), if_neg (by simp [h3]),
    if_neg (by simp [h4]), if_neg (by simp [h5]), if_neg (by simp [h6])]
  simp only [hsc, hwc, hstc]

theorem queryFind_ok_some_matched {lf : String} {ls : Option StyleVal}
    {lw lst : Option (ℚ × ℚ)} :
    ∀ {reg : List FontFace} {f : FontFace},
      queryFind lf ls lw lst reg = .ok (some f) →
      matchEntry f lf ls lw lst = .ok true := by
  intro reg
  induction reg with
  | nil => intro f h; simp [queryFind] at h
  | cons a rest ih =>
    intro f h
    unfold queryFind at h
    cases hma : matchEntry a lf ls lw lst with
    | error e => rw [hma] at h; simp at h
    | ok b =>
      rw [hma] at h
      cases b with
      | true =>
        simp only [Except.ok.injEq, Option.some.injEq] at h
        subst h
        exact hma
      | false => exact ih h

theorem queryFind_mem_match {lf : String} {ls : Option StyleVal} {lw lst : Option (ℚ × ℚ)} :
    ∀ {reg : List FontFace} {e : FontFace} {r : Option FontFace},
      e ∈ reg → matchEntry e lf ls lw lst = .ok true →
      queryFind lf ls lw lst reg = .ok r → r.isSome = true := by
  intro reg
  induction reg with
  | nil => intro e r hmem; simp at hmem
  | cons a rest ih =>
    intro e r hmem hme hq
    unfold queryFind at hq
    cases hma : matchEntry a lf ls lw lst with
    | error err => rw [hma] at hq; simp at hq
    | ok b =>
      rw [hma] at hq
      cases b with
      | true =>
        simp only [Except.ok.injEq] at hq
        subst hq
        rfl
      | false =>
        rcases List.mem_cons.mp hmem with rfl | hmem2
        · exact absurd (hme.symm.trans hma) (by simp)
        · exact ih hmem2 hme hq

theorem queryFind_append_error {lf : String} {ls : Option StyleVal} {lw lst : Option (ℚ × ℚ)}
    {e : FontFace} {err : FontError} {post : List FontFace} :
    ∀ pre : List FontFace, (∀ a ∈ pre, matchEntry a lf ls lw lst = .ok false) →
      matchEntry e lf ls lw lst = .error err →
      queryFind lf ls lw lst (pre ++ e :: post) = .error err := by
  intro pre
  induction pre with
  | nil =>
    intro _ hme
    simp only [List.nil_append]
    unfold queryFind
    rw [hme]
  | cons a rest ih =>
    intro hpre hme
    simp only [List.cons_append]
    unfold queryFind
    rw [hpre a (List.mem_cons_self a rest)]
    exact ih (fun b hb => hpre b (List.mem_cons_of_mem a hb)) hme

theorem query_append_entry_error {pre post : List FontFace} {e : FontFace}
    {fam : String} {desc : FontDescriptor} {ls : Option StyleVal}
    {lw lst : Option (ℚ × ℚ)} {err : FontError}
    (hls : parseIfTruthy parseFontStyle desc.style = .ok ls)
    (hlw : parseIfTruthy parseFontWeight desc.weight = .ok lw)
    (hlst : parseIfTruthy parseFontStretch desc.stretch = .ok lst)
    (hpre : ∀ a ∈ pre, matchEntry a (normalizeFontFamily fam) ls lw lst = .ok false)
    (hme : matchEntry e (normalizeFontFamily fam) ls lw lst = .error err) :
    query (pre ++ e :: post) fam desc = .error err := by
  unfold query
  rw [hls, hlw, hlst]
  exact queryFind_append_error pre hpre hme

/-! ### Claim theorems -/

/-- Claim C1: the require variant `tryQuery` is documented (and specified)
to raise an error carrying the requested family and descriptor when
`query` finds nothing; the code instead throws a plain `Error` whose
message interpolates an undefined local, and the error value is not the
`FontRequiredError` that would carry those diagnostic fields. Shown at the
failing input: empty registry, family X, descriptor weight 400. -/
theorem c1_tryQuery_error_without_diagnostics :
    tryQuery [] "X" ⟨none, some "400", none⟩ =
      .error (.plainError "required font undefined not found") ∧
    FontError.plainError "required font undefined not found" ≠
      FontRequiredError "X" ⟨none, some "400", none⟩ := by
  exact ⟨by decide, by simp [FontRequiredError]⟩

/-- Claim C2 counterexample: the two-token weight shorthand 900 100 is
accepted and returns the pair verbatim, so the parsed range has
low = 900 > 100 = high, refuting that every accepted shorthand yields an
ordered range. -/
theorem c2_counterexample_weight_inverted :
    parseFontWeight "900 100" = .ok (900, 100) ∧ ¬ ((900 : ℚ) ≤ (100 : ℚ)) := by
  exact ⟨by decide, by norm_num⟩

/-- Claim C2 (amended): every range accepted by the weight, stretch or
style parser satisfies low ≤ high unless it came from a two-value
shorthand (two tokens for weight/stretch, keyword plus two angle tokens
for oblique), which is returned verbatim without reordering. -/
theorem c2_ranges_ordered_unless_two_values :
    (∀ (s : String) (r : ℚ × ℚ), parseFontWeight s = .ok r →
      r.1 ≤ r.2 ∨ numTokens s = 2) ∧
    (∀ (s : String) (r : ℚ × ℚ), parseFontStretch s = .ok r →
      r.1 ≤ r.2 ∨ numTokens s = 2) ∧
    (∀ (s : String) (sv : StyleVal) (r : ℚ × ℚ), parseFontStyle s = .ok sv →
      sv.obliqueAngle = some r → r.1 ≤ r.2 ∨ numTokens s = 3) := by
  refine ⟨?_, ?_, ?_⟩
  · intro s r h
    unfold parseFontWeight at h
    split at h
    · split at h
      · simp at h
      · simp only [Except.ok.injEq] at h
        subst h
        exact Or.inl le_rfl
    · next t0 t1 heq =>
      right
      unfold numTokens
      rw [heq]
      rfl
    · simp at h
  · intro s r h
    unfold parseFontStretch at h
    split at h
    · split at h
      · simp at h
      · simp only [Except.ok.injEq] at h
        subst h
        exact Or.inl le_rfl
    · next t0 t1 heq =>
      right
      unfold numTokens
      rw [heq]
      rfl
    · simp at h
  · intro s sv r h hoa
    unfold parseFontStyle at h
    split at h
    · simp at h
    · next style rest heq =>
      rcases parseStyleTokens_ok_ordered h hoa with hle | hlen
      · exact Or.inl hle
      · right
        unfold numTokens
        rw [heq]
        simp [hlen]

/-- Claim C2 witness: instantiating the weight part at the accepted
shorthand bold. -/
theorem c2_ordered_witness : (700 : ℚ) ≤ 700 ∨ numTokens "bold" = 2 :=
  c2_ranges_ordered_unless_two_values.1 "bold" (700, 700) (by decide)

/-- Claim C3 counterexample: the registry holds first a wide variable-font
entry (weight 100 900) and then an entry whose descriptor strings exactly
equal the query (weight 400); `query` is a first-match search and returns
the wide entry, not the exactly-equal one, although the latter satisfies
every hypothesis of the claim. -/
theorem c3_counterexample_first_match_shadows_exact :
    query [entryOf "x" "normal" "100 900" "normal", entryOf "x" "normal" "400" "normal"]
        "x" ⟨some "normal", some "400", none⟩ =
      .ok (some (entryOf "x" "normal" "100 900" "normal")) ∧
    entryOf "x" "normal" "100 900" "normal" ≠ entryOf "x" "normal" "400" "normal" ∧
    entryOf "x" "normal" "400" "normal" ∈
      [entryOf "x" "normal" "100 900" "normal", entryOf "x" "normal" "400" "normal"] ∧
    structuralDefaults (entryOf "x" "normal" "400" "normal") ∧
    (entryOf "x" "normal" "400" "normal").family = "x" ∧
    (entryOf "x" "normal" "400" "normal").style = "normal" ∧
    (entryOf "x" "normal" "400" "normal").weight = "400" := by
  refine ⟨by decide, by decide, by decide, by decide, rfl, rfl, rfl⟩

/-- Claim C3 (amended): when the registry contains an entry with default
structural fields whose family and every requested descriptor string
exactly equal the query strings, a successfully completing `query` never
reports not found — the exact entry itself passes the per-entry match (a
range always contains itself), so the first-match scan returns some
matching entry (not necessarily the exact one). -/
theorem c3_exact_entry_query_succeeds :
    ∀ (reg : List FontFace) (e : FontFace) (desc : FontDescriptor) (r : Option FontFace),
      e ∈ reg → structuralDefaults e →
      (truthy desc.style = true → desc.style = some e.style) →
      (truthy desc.weight = true → desc.weight = some e.weight) →
      (truthy desc.stretch = true → desc.stretch = some e.stretch) →
      query reg e.family desc = .ok r → r.isSome = true := by
  intro reg e desc r hmem hsd hs hw hst hq
  unfold query at hq
  cases hls : parseIfTruthy parseFontStyle desc.style with
  | error err => rw [hls] at hq; simp at hq
  | ok ls =>
    rw [hls] at hq
    cases hlw : parseIfTruthy parseFontWeight desc.weight with
    | error err => rw [hlw] at hq; simp at hq
    | ok lw =>
      rw [hlw] at hq
      cases hlst : parseIfTruthy parseFontStretch desc.stretch with
      | error err => rw [hlst] at hq; simp at hq
      | ok lst =>
        rw [hlst] at hq
        exact queryFind_mem_match hmem
          (matchEntry_exact rfl hsd hls hlw hlst hs hw hst) hq

/-- Claim C3 witness: a singleton registry whose entry weight string
equals the queried weight string. -/
theorem c3_exact_entry_witness :
    (Option.some (entryOf "x" "normal" "400" "normal")).isSome = true :=
  c3_exact_entry_query_succeeds [entryOf "x" "normal" "400" "normal"]
    (entryOf "x" "normal" "400" "normal") ⟨none, some "400", none⟩
    (some (entryOf "x" "normal" "400" "normal"))
    (by decide) (by decide) (by decide) (by decide) (by decide) (by decide)

/-- Claim C4: an entry with any structural eligibility field different
from its default sentinel is never the result of `query`, whatever the
family and descriptors. -/
theorem c4_nondefault_structural_never_returned :
    ∀ (reg : List FontFace) (fam : String) (desc : FontDescriptor) (e : FontFace),
      ¬ structuralDefaults e → query reg fam desc ≠ .ok (some e) := by
  intro reg fam desc e hnsd hq
  unfold query at hq
  cases hls : parseIfTruthy parseFontStyle desc.style with
  | error err => rw [hls] at hq; simp at hq
  | ok ls =>
    rw [hls] at hq
    cases hlw : parseIfTruthy parseFontWeight desc.weight with
    | error err => rw [hlw] at hq; simp at hq
    | ok lw =>
      rw [hlw] at hq
      cases hlst : parseIfTruthy parseFontStretch desc.stretch with
      | error err => rw [hlst] at hq; simp at hq
      | ok lst =>
        rw [hlst] at hq
        exact hnsd (matchEntry_ok_true_structural (queryFind_ok_some_matched hq))

/-- Claim C4 witness: an otherwise exactly matching entry with a custom
unicode-range is not returned. -/
theorem c4_structural_witness :
    query [⟨"Font Awesome", "normal", "900", "normal", "normal", "normal", "normal",
        "normal", "U+0-FF", ""⟩] "Font Awesome" ⟨none, some "900", none⟩ ≠
      .ok (some ⟨"Font Awesome", "normal", "900", "normal", "normal", "normal", "normal",
        "normal", "U+0-FF", ""⟩) :=
  c4_nondefault_structural_never_returned _ _ _ _ (by decide)

/-- Claim C5: every range returned by the weight parser lies within
[1, 1000]; bold parses to [700, 700], the shorthand 100 900 to [100, 900],
and 1500 is rejected with a grammar error for being out of bound. -/
theorem c5_weight_bounds_and_examples :
    (∀ (s : String) (r : ℚ × ℚ), parseFontWeight s = .ok r →
      (1 ≤ r.1 ∧ r.1 ≤ 1000) ∧ (1 ≤ r.2 ∧ r.2 ≤ 1000)) ∧
    parseFontWeight "bold" = .ok (700, 700) ∧
    parseFontWeight "100 900" = .ok (100, 900) ∧
    parseFontWeight "1500" = .error (.syntaxError "invalid font weight 1500") := by
  refine ⟨?_, by decide, by decide, by decide⟩
  intro s r h
  unfold parseFontWeight at h
  split at h
  · split at h
    · simp at h
    · next v hv =>
      simp only [Except.ok.injEq] at h
      subst h
      have hb := checkWeightToken_ok_bounds hv
      exact ⟨hb, hb⟩
  · split at h
    · simp at h
    · next v0 hv0 =>
      split at h
      · simp at h
      · next v1 hv1 =>
        simp only [Except.ok.injEq] at h
        subst h
        exact ⟨checkWeightToken_ok_bounds hv0, checkWeightToken_ok_bounds hv1⟩
  · simp at h

/-- Claim C5 witness: instantiating the bound at the accepted shorthand
bold. -/
theorem c5_weight_witness :
    ((1 : ℚ) ≤ 700 ∧ (700 : ℚ) ≤ 1000) ∧ ((1 : ℚ) ≤ 700 ∧ (700 : ℚ) ≤ 1000) :=
  c5_weight_bounds_and_examples.1 "bold" (700, 700) (by decide)

/-- Claim C6: bare oblique defaults to the angle range [14, 14]; a
two-angle oblique shorthand returns both angles; italic admits no further
tokens, so italic bold is a grammar error. -/
theorem c6_style_examples :
    parseFontStyle "oblique" = .ok ⟨"oblique", some (14, 14)⟩ ∧
    parseFontStyle "oblique -20deg 20deg" = .ok ⟨"oblique", some (-20, 20)⟩ ∧
    parseFontStyle "italic bold" = .error (.syntaxError "invalid font style italic bold") := by
  exact ⟨by decide, by decide, by decide⟩

/-- Claim C7: `query` observes the requested family only through
`normalizeFontFamily` (trim, lower-case, strip one wrapping pair of double
quotes, trim again), so families agreeing after normalization are
interchangeable; in particular the request Roboto Flex matches an entry
registered with surrounding quotes in lower case. -/
theorem c7_family_normalization_insensitive :
    (∀ (reg : List FontFace) (f1 f2 : String) (desc : FontDescriptor),
      normalizeFontFamily f1 = normalizeFontFamily f2 →
      query reg f1 desc = query reg f2 desc) ∧
    normalizeFontFamily "Roboto Flex" = "roboto flex" ∧
    normalizeFontFamily "\"roboto flex\"" = "roboto flex" ∧
    query [entryOf "\"roboto flex\"" "normal" "normal" "normal"] "Roboto Flex"
        ⟨none, none, none⟩ =
      .ok (some (entryOf "\"roboto flex\"" "normal" "normal" "normal")) := by
  refine ⟨?_, by decide, by decide, by decide⟩
  intro reg f1 f2 desc h
  unfold query
  rw [h]

/-- Claim C7 witness: the two spellings of the family give the same query
on the empty registry. -/
theorem c7_family_witness :
    query [] "Roboto Flex" ⟨none, none, none⟩ =
      query [] "\"roboto flex\"" ⟨none, none, none⟩ :=
  c7_family_normalization_insensitive.1 [] "Roboto Flex" "\"roboto flex\""
    ⟨none, none, none⟩ (by decide)

/-- Claim C8 counterexample: with a matching entry ahead of it in
iteration order, an entry with matching normalized family, default
structural fields, and an unparseable style string of its own is never
reached — `query` returns the earlier match and raises no error, refuting
the claim as universally stated. -/
theorem c8_counterexample_match_preempts_entry_error :
    query [entryOf "x" "normal" "400" "normal", entryOf "x" "bogus" "400" "normal"]
        "x" ⟨some "normal", none, none⟩ =
      .ok (some (entryOf "x" "normal" "400" "normal")) ∧
    structuralDefaults (entryOf "x" "bogus" "400" "normal") ∧
    normalizeFontFamily (entryOf "x" "bogus" "400" "normal").family =
      normalizeFontFamily "x" ∧
    parseFontStyle (entryOf "x" "bogus" "400" "normal").style =
      .error (.syntaxError "invalid font style bogus") ∧
    (∀ err : FontError,
      query [entryOf "x" "normal" "400" "normal", entryOf "x" "bogus" "400" "normal"]
        "x" ⟨some "normal", none, none⟩ ≠ .error err) := by
  refine ⟨by decide, by decide, by decide, by decide, ?_⟩
  intro err h
  rw [show query [entryOf "x" "normal" "400" "normal", entryOf "x" "bogus" "400" "normal"]
      "x" ⟨some "normal", none, none⟩ =
      .ok (some (entryOf "x" "normal" "400" "normal")) from by decide] at h
  simp at h

/-- Claim C8 (amended): when the registry scan reaches an entry with
matching normalized family and default structural fields — that is, every
earlier entry fails to match without error — and the query requests a
style, weight, or stretch whose corresponding descriptor string of the
entry fails to parse, `query` raises that grammar error to the caller
instead of skipping the entry. The per-entry checks run in source order
(style, then weight, then stretch), so the weight case additionally
requires the entry to pass the style clause, and the stretch case the
style and weight clauses — otherwise the earlier clause skips the entry
(or raises its own error) before the broken descriptor is ever parsed. -/
theorem c8_entry_error_propagates_when_reached :
    (∀ (pre post : List FontFace) (e : FontFace) (fam : String) (desc : FontDescriptor)
      (ls : Option StyleVal) (lw lst : Option (ℚ × ℚ)) (err : FontError),
      parseIfTruthy parseFontStyle desc.style = .ok ls →
      parseIfTruthy parseFontWeight desc.weight = .ok lw →
      parseIfTruthy parseFontStretch desc.stretch = .ok lst →
      truthy desc.style = true →
      (∀ a ∈ pre, matchEntry a (normalizeFontFamily fam) ls lw lst = .ok false) →
      normalizeFontFamily e.family = normalizeFontFamily fam →
      structuralDefaults e →
      parseFontStyle e.style = .error err →
      query (pre ++ e :: post) fam desc = .error err) ∧
    (∀ (pre post : List FontFace) (e : FontFace) (fam : String) (desc : FontDescriptor)
      (ls : Option StyleVal) (lw lst : Option (ℚ × ℚ)) (err : FontError),
      parseIfTruthy parseFontStyle desc.style = .ok ls →
      parseIfTruthy parseFontWeight desc.weight = .ok lw →
      parseIfTruthy parseFontStretch desc.stretch = .ok lst →
      truthy desc.weight = true →
      (∀ a ∈ pre, matchEntry a (normalizeFontFamily fam) ls lw lst = .ok false) →
      normalizeFontFamily e.family = normalizeFontFamily fam →
      structuralDefaults e →
      styleCheck e ls = .ok true →
      parseFontWeight e.weight = .error err →
      query (pre ++ e :: post) fam desc = .error err) ∧
    (∀ (pre post : List FontFace) (e : FontFace) (fam : String) (desc : FontDescriptor)
      (ls : Option StyleVal) (lw lst : Option (ℚ × ℚ)) (err : FontError),
      parseIfTruthy parseFontStyle desc.style = .ok ls →
      parseIfTruthy parseFontWeight desc.weight = .ok lw →
      parseIfTruthy parseFontStretch desc.stretch = .ok lst →
      truthy desc.stretch = true →
      (∀ a ∈ pre, matchEntry a (normalizeFontFamily fam) ls lw lst = .ok false) →
      normalizeFontFamily e.family = normalizeFontFamily fam →
      structuralDefaults e →
      styleCheck e ls = .ok true →
      weightCheck e lw = .ok true →
      parseFontStretch e.stretch = .error err →
      query (pre ++ e :: post) fam desc = .error err) := by
  refine ⟨?_, ?_, ?_⟩
  · intro pre post e fam desc ls lw lst err hls hlw hlst ht hpre hfam hsd hperr
    obtain ⟨s, q, hos, hps, hlsq⟩ := parseIfTruthy_truthy_some ht hls
    subst hlsq
    exact query_append_entry_error hls hlw hlst hpre
      (matchEntry_style_error hfam hsd hperr)
  · intro pre post e fam desc ls lw lst err hls hlw hlst ht hpre hfam hsd hsc hperr
    obtain ⟨s, qw, hos, hps, hlwq⟩ := parseIfTruthy_truthy_some ht hlw
    subst hlwq
    exact query_append_entry_error hls hlw hlst hpre
      (matchEntry_weight_error hfam hsd hsc hperr)
  · intro pre post e fam desc ls lw lst err hls hlw hlst ht hpre hfam hsd hsc hwc hperr
    obtain ⟨s, qst, hos, hps, hlstq⟩ := parseIfTruthy_truthy_some ht hlst
    subst hlstq
    exact query_append_entry_error hls hlw hlst hpre
      (matchEntry_stretch_error hfam hsd hsc hwc hperr)

/-- Claim C8 witness: a singleton registry whose only entry has the
unparseable weight string bogus, queried by weight. -/
theorem c8_entry_error_witness :
    query [entryOf "x" "normal" "bogus" "normal"] "x" ⟨none, some "400", none⟩ =
      .error (.syntaxError "invalid font weight bogus") :=
  c8_entry_error_propagates_when_reached.2.1 [] [] (entryOf "x" "normal" "bogus" "normal")
    "x" ⟨none, some "400", none⟩ none (some (400, 400)) none
    (.syntaxError "invalid font weight bogus")
    (by decide) (by decide) (by decide) (by decide) (by simp) (by decide) (by decide)
    (by decide) (by decide)

/-- Claim C9: `query` never mutates the registry (it is a pure reader in
this embedding), and `load` registers a new entry only when `query`
reports no match — when a match exists the registry is returned unchanged
with the found entry; otherwise exactly the one constructed entry is
appended and its load completion yields that entry; in particular on the
empty registry with family X and weight 400. -/
theorem c9_load_registers_only_when_absent :
    (∀ (reg : List FontFace) (fam src : String) (desc : FontDescriptor) (f : FontFace),
      query reg fam desc = .ok (some f) → load reg fam src desc = .ok (reg, f)) ∧
    (∀ (reg : List FontFace) (fam src : String) (desc : FontDescriptor),
      query reg fam desc = .ok none →
      load reg fam src desc =
        .ok (reg ++ [mkFontFace fam src desc], mkFontFace fam src desc)) ∧
    (∀ src : String,
      load [] "X" src ⟨none, some "400", none⟩ =
        .ok ([mkFontFace "X" src ⟨none, some "400", none⟩],
          mkFontFace "X" src ⟨none, some "400", none⟩)) := by
  refine ⟨?_, ?_, ?_⟩
  · intro reg fam src desc f h
    unfold load
    rw [h]
  · intro reg fam src desc h
    unfold load
    rw [h]
  · intro src
    unfold load
    rw [show query [] "X" ⟨none, some "400", none⟩ = .ok none from by decide]
    rfl

/-- Claim C9 witness: a registry already holding the matching entry is
returned unchanged. -/
theorem c9_load_witness :
    load [entryOf "Font Awesome" "normal" "900" "normal"] "Font Awesome" "url"
        ⟨none, some "900", none⟩ =
      .ok ([entryOf "Font Awesome" "normal" "900" "normal"],
        entryOf "Font Awesome" "normal" "900" "normal") :=
  c9_load_registers_only_when_absent.1 [entryOf "Font Awesome" "normal" "900" "normal"]
    "Font Awesome" "url" ⟨none, some "900", none⟩
    (entryOf "Font Awesome" "normal" "900" "normal") (by decide)

/-- Claim C10: a descriptor field that is present but equal to the empty
string is falsy, so `query` neither parses it nor checks it — the result
is identical to the query with that field omitted, for each of the three
fields. -/
theorem c10_empty_descriptor_treated_absent :
    (∀ (reg : List FontFace) (fam : String) (w st : Option String),
      query reg fam ⟨some "", w, st⟩ = query reg fam ⟨none, w, st⟩) ∧
    (∀ (reg : List FontFace) (fam : String) (s st : Option String),
      query reg fam ⟨s, some "", st⟩ = query reg fam ⟨s, none, st⟩) ∧
    (∀ (reg : List FontFace) (fam : String) (s w : Option String),
      query reg fam ⟨s, w, some ""⟩ = query reg fam ⟨s, w, none⟩) := by
  refine ⟨?_, ?_, ?_⟩ <;>
    · intro reg fam a b
      unfold query
      simp [parseIfTruthy]

end FontUtils
